import Mathlib

/-!
Shallow embedding of `src/clean.py` (a pandas data-cleaning pipeline for the
Sberbank housing dataset) and proofs about it.

Modelling conventions:
* a pandas cell is `Option Value`: `none` is NaN/missing, `Value.num` a numeric
  value (floats and ints are modelled as rationals), `Value.str` a Python string;
* a DataFrame is `Table`: an ordered list of column labels plus rows, each row
  carrying its index label (`Row = Cell × List Cell`); row labels are assumed
  unique (the tables are keyed by `id` / `timestamp`);
* pandas elementwise comparisons against NaN are `False`; this is the semantics
  of `cellGT`, `cellLTL`, …  Ordered comparisons on non-numeric cells are also
  modelled as `False` (in the pipeline the compared columns are numeric);
* operations that raise (`KeyError` on a missing column, `NameError` on an
  undefined global, `ValueError` on non-numeric imputer input, scipy's
  `IndexError` on an empty mode) return `Except String Table`.
-/

namespace Clean

/-- A scalar that can sit in a pandas cell: a number or a string. -/
inductive Value where
  | num (q : ℚ)
  | str (s : String)
deriving DecidableEq

/-- A pandas cell; `none` models NaN / missing. -/
abbrev Cell := Option Value

/-- One DataFrame row: its index label paired with its cells (in column order). -/
abbrev Row := Cell × List Cell

/-- A pandas DataFrame: ordered column labels and rows. -/
structure Table where
  cols : List String
  rows : List Row
deriving DecidableEq

/-- Cell of a row at column position `j` (missing if the row is too short). -/
def Row.cell (r : Row) (j : Nat) : Cell := r.2.getD j none

/-- The list of cells of column position `j`, top to bottom. -/
def Table.col (t : Table) (j : Nat) : List Cell := t.rows.map (fun r => r.cell j)

/-- Numeric view of a cell: `some q` exactly when the cell holds a number. -/
def cellNum : Cell → Option ℚ
  | some (Value.num q) => some q
  | _ => none

/-- Pandas `a > b` between two cells: `False` unless both are numbers. -/
def cellGT (a b : Cell) : Bool :=
  match cellNum a, cellNum b with
  | some x, some y => decide (x > y)
  | _, _ => false

/-- Pandas `a > q` against a numeric literal. -/
def cellGTL (a : Cell) (q : ℚ) : Bool :=
  match cellNum a with
  | some x => decide (x > q)
  | _ => false

/-- Pandas `a < q` against a numeric literal. -/
def cellLTL (a : Cell) (q : ℚ) : Bool :=
  match cellNum a with
  | some x => decide (x < q)
  | _ => false

/-- Pandas `a <= q` against a numeric literal. -/
def cellLEL (a : Cell) (q : ℚ) : Bool :=
  match cellNum a with
  | some x => decide (x ≤ q)
  | _ => false

/-- Pandas `a == q` against a numeric literal (`False` on NaN and strings). -/
def cellEqL (a : Cell) (q : ℚ) : Bool := decide (a = some (Value.num q))

/-- Column access `df["n"]`: position of the first column labelled `n`, or a
`KeyError` when no such column exists. -/
def requireCol (t : Table) (n : String) : Except String Nat :=
  if n ∈ t.cols then .ok (t.cols.indexOf n) else .error ("KeyError: " ++ n)

/-- Rewrite of `df = df.drop(df[pred].index)`: with unique row labels this keeps
exactly the rows on which `pred` is false. -/
def dropRows (t : Table) (p : Row → Bool) : Table :=
  { t with rows := t.rows.filter (fun r => !(p r)) }

/-- Sequential application of a list of row-removal predicates, in order. -/
def dropAll (t : Table) (ps : List (Row → Bool)) : Table := ps.foldl dropRows t

/-- Rewrite of `df[c].loc[sel] = v` column mutation: apply `f` to every cell of
column position `j`, leaving all other columns untouched. -/
def mapColCell (t : Table) (j : Nat) (f : Cell → Cell) : Table :=
  { t with rows := t.rows.map (fun r => (r.1, r.2.set j (f (r.cell j)))) }

/-! ### Outlier Truncator — `truncate_extreme_values`, clean.py lines 23-42 -/

/-- The configured (column, high-percentile, low-percentile) triples of
clean.py line 25: `price_doc`(99.5, 0.5), `full_sq`(99.5, 0.5), `life_sq`(95, 5). -/
def truncConfig : List (String × ℚ × ℚ) :=
  [("price_doc", 199/2, 1/2), ("full_sq", 199/2, 1/2), ("life_sq", 95, 5)]

/-- A Python object appearing in the membership test of clean.py line 27:
`col in df.columns` compares the loop tuple against string column labels. -/
inductive PyLabel where
  | str (s : String)
  | tup (c : String × ℚ × ℚ)
deriving DecidableEq

/-- Value of `np.percentile(v, q)` with the default linear interpolation between
order statistics. -/
def npPercentile (v : List ℚ) (q : ℚ) : ℚ :=
  let s := v.insertionSort (· ≤ ·)
  let pos := q * ((s.length : ℚ) - 1) / 100
  let i := pos.floor.toNat
  let f := pos - (i : ℚ)
  let a := s.getD i 0
  let b := s.getD (i + 1) a
  a + f * (b - a)

/-- Rewrite of `np.delete(col_values, np.where(col_values == -99))`: drop the
sentinel value -99 before the percentile computation. -/
def sentinelFiltered (v : List ℚ) : List ℚ := v.filter (fun x => decide (x ≠ -99))

/-- The two clip assignments of clean.py lines 35-36, applied to one cell:
first values above `hi` become `hi`, then values below `lo` become `lo`.
NaN and string cells compare false and stay unchanged. -/
def clipCell (lo hi : ℚ) (c : Cell) : Cell :=
  match cellNum c with
  | some x =>
    let y := if x > hi then hi else x
    some (Value.num (if y < lo then lo else y))
  | none => c

/-- Body of the `if` of clean.py lines 28-36 (what runs when the guard holds):
percentiles of the sentinel-free numeric column values, then clipping. -/
def truncColumn (t : Table) (c : String × ℚ × ℚ) : Table :=
  match requireCol t c.1 with
  | .error _ => t
  | .ok j =>
    let vals := sentinelFiltered ((t.col j).filterMap cellNum)
    let hi := npPercentile vals c.2.1
    let lo := npPercentile vals c.2.2
    mapColCell t j (clipCell lo hi)

/-- Embedding of `truncate_extreme_values` (clean.py lines 23-42).  The guard
on line 27 is `col in df.columns` where `col` is the whole (name, hi, lo)
*tuple*, not the name `col[0]`; a tuple never equals a string label, so the
membership test is false for every table and the clipping body is dead code. -/
def truncate_extreme_values (df : Table) : Table :=
  truncConfig.foldl
    (fun t c => if PyLabel.tup c ∈ t.cols.map PyLabel.str then truncColumn t c else t) df

/-! ### Categorical Encoder — `convert_categorical_to_numerical`, clean.py lines 45-54 -/

/-- Python `str(x)` on a cell, as `values.astype("str")` produces it: NaN
becomes the string `"nan"`, a number its decimal form, a string itself. -/
def pyStr : Cell → String
  | none => "nan"
  | some (Value.num q) => toString q
  | some (Value.str s) => s

/-- Dtype test of clean.py line 49: a column read from CSV has dtype `object`
exactly when it contains a textual value. -/
def isObjCol (cells : List Cell) : Bool :=
  cells.any fun c => match c with
    | some (Value.str _) => true
    | _ => false

/-- Lexicographic comparison of two character lists, by Unicode code point —
the order numpy sorts string arrays by. -/
def charListLe : List Char → List Char → Bool
  | [], _ => true
  | _ :: _, [] => false
  | a :: as, b :: bs => if a < b then true else if b < a then false else charListLe as bs

/-- Lexicographic `a ≤ b` on strings, via their character lists. -/
def lexLe (a b : String) : Bool := charListLe a.data b.data

/-- Insertion of `a` into `l` in front of the first element not below it. -/
def insSorted {α : Type} (le : α → α → Bool) (a : α) : List α → List α
  | [] => [a]
  | b :: l => if le a b then a :: b :: l else b :: insSorted le a l

/-- Insertion sort by a boolean comparison (ascending, stable). -/
def insSort {α : Type} (le : α → α → Bool) : List α → List α
  | [] => []
  | a :: l => insSorted le a (insSort le l)

/-- Classes of a fitted `sklearn.preprocessing.LabelEncoder`: the distinct
values of the fit list, in ascending (lexicographic) order. -/
def lblClasses (xs : List String) : List String := insSort lexLe xs.dedup

/-- Code of `x` under `LabelEncoder.transform`: its position in `classes_`. -/
def lblTransform (cls : List String) (x : String) : Nat := cls.indexOf x

/-- The fit list of clean.py lines 50-52:
`list(df[f].values.astype("str")) + list(df[f].values.astype("str"))` — the
column's string values concatenated with themselves. -/
def colFitList (cells : List Cell) : List String := cells.map pyStr ++ cells.map pyStr

/-- Classes the encoder fits for column position `j` of `t` (duplicated fit list,
exactly as the source builds it). -/
def colClasses (t : Table) (j : Nat) : List String := lblClasses (colFitList (t.col j))

/-- Guard of clean.py line 49: column `j` is encoded when its dtype is `object`
and its label is not `"timestamp"`. -/
def encCol (t : Table) (j : Nat) : Bool :=
  isObjCol (t.col j) && (t.cols.getD j "" != "timestamp")

/-- Embedding of `convert_categorical_to_numerical` (clean.py lines 45-54): every
object-dtype non-timestamp column is replaced by the codes of its stringified
values; all other columns pass through.  Rows are read at the column positions
`0 … cols.length - 1` (rows are aligned with the header). -/
def convert_categorical_to_numerical (t : Table) : Table :=
  { cols := t.cols,
    rows := t.rows.map fun r =>
      (r.1, (List.range t.cols.length).map fun j =>
        if encCol t j then some (Value.num (lblTransform (colClasses t j) (pyStr (r.cell j))))
        else r.cell j) }

/-- Modelled from the spec: the encoder §4.3 describes fitting the value→code
mapping on the column's values once.  Identical to
`convert_categorical_to_numerical` except that the fit list is the column's
string values without the duplication of clean.py lines 50-52. -/
def convert_once (t : Table) : Table :=
  { cols := t.cols,
    rows := t.rows.map fun r =>
      (r.1, (List.range t.cols.length).map fun j =>
        if encCol t j then
          some (Value.num (lblTransform (lblClasses ((t.col j).map pyStr)) (pyStr (r.cell j))))
        else r.cell j) }

/-! ### Imputer — `impute_missing_values_data` / the macro variant, clean.py lines 57-75 -/

/-- Test for a textual cell, which `KNNImputer` cannot convert to float. -/
def isStrCell : Cell → Bool
  | some (Value.str _) => true
  | _ => false

/-- Squared `nan_euclidean` distance between two rows, scaled by
(number of columns / number of coordinates observed in both rows); `none` when
no coordinate is observed in both.  Only the relative order of distances
matters below, so the square root is never taken. -/
def nanSqDist (ncols : Nat) (a b : List Cell) : Option ℚ :=
  let ps := (a.zip b).filterMap fun p =>
    match cellNum p.1, cellNum p.2 with
    | some x, some y => some ((x - y) * (x - y))
    | _, _ => none
  if ps.isEmpty then none else some ((ncols : ℚ) / (ps.length : ℚ) * ps.sum)

/-- Mean of the observed values of column position `j`. -/
def colMean (t : Table) (j : Nat) : ℚ :=
  let vs := (t.col j).filterMap cellNum
  vs.sum / (vs.length : ℚ)

/-- Fill value of `KNNImputer(n_neighbors=5)` for the missing cell at row `i`,
column `j`: the mean of column `j` over the five donor rows (rows with an
observed value in `j` and a defined distance to row `i`) nearest to row `i`,
ties broken by row position; when no donor exists, the column mean. -/
def knnValue (t : Table) (i j : Nat) : ℚ :=
  let cellsOf := fun i2 => (t.rows.getD i2 (none, [])).2
  let donors := (List.range t.rows.length).filter fun i2 =>
    decide (i2 ≠ i) && (cellNum ((cellsOf i2).getD j none)).isSome
      && (nanSqDist t.cols.length (cellsOf i) (cellsOf i2)).isSome
  if donors.isEmpty then colMean t j
  else
    let dist := fun i2 => (nanSqDist t.cols.length (cellsOf i) (cellsOf i2)).getD 0
    let near := (donors.insertionSort fun a b =>
      dist a < dist b ∨ (dist a = dist b ∧ a ≤ b)).take 5
    let vals := near.filterMap fun i2 => cellNum ((cellsOf i2).getD j none)
    vals.sum / (vals.length : ℚ)

/-- Column positions `KNNImputer` keeps: those with at least one observed
numeric value (all-missing columns are dropped by the default
`keep_empty_features=False`). -/
def keptIdx (t : Table) : List Nat :=
  (List.range t.cols.length).filter fun j => (t.col j).any fun c => (cellNum c).isSome

/-- Result of `pd.DataFrame(imputer.fit_transform(df), columns=df.columns)`:
kept columns only, observed cells unchanged, missing cells filled by
`knnValue`, and a fresh positional index `0 … n-1`. -/
def knnFillTable (t : Table) : Table :=
  { cols := (keptIdx t).map fun j => t.cols.getD j "",
    rows := (List.range t.rows.length).map fun (i : Nat) =>
      (some (Value.num (i : ℚ)),
       (keptIdx t).map fun j =>
         match cellNum ((t.rows.getD i (none, [])).2.getD j none) with
         | some q => some (Value.num q)
         | none => some (Value.num (knnValue t i j))) }

/-- The fit-transform call: raises `ValueError` when a cell is textual, else
fills the table. -/
def knnImputeTable (t : Table) : Except String Table :=
  if t.rows.any (fun r => r.2.any isStrCell) then
    .error "ValueError: could not convert string to float"
  else .ok (knnFillTable t)

/-- Removal of column position `j` (`df.drop("timestamp", axis=1)`). -/
def dropColAt (t : Table) (j : Nat) : Table :=
  { cols := t.cols.eraseIdx j,
    rows := t.rows.map fun r => (r.1, r.2.eraseIdx j) }

/-- Assignment `df[n] = vs` for a label `n` not among the columns: appends
column `n` on the right, pairing values with rows by position. -/
def appendCol (t : Table) (n : String) (vs : List Cell) : Table :=
  { cols := t.cols ++ [n],
    rows := (t.rows.zip vs).map fun p => (p.1.1, p.1.2 ++ [p.2]) }

/-- Embedding of `impute_missing_values_data` (clean.py lines 57-65): drop the
`timestamp` column, KNN-impute the rest (the wrapping `pd.DataFrame` resets the
index to `0 … n-1`), then reattach the saved `timestamp` values by position —
which appends the column at the right end. -/
def impute_missing_values_data (df : Table) : Except String Table :=
  match requireCol df "timestamp" with
  | .error e => .error e
  | .ok jts =>
    match knnImputeTable (dropColAt df jts) with
    | .error e => .error e
    | .ok imputed => .ok (appendCol imputed "timestamp" (df.col jts))

/-- Embedding of `impute_missing_values_macro` (clean.py lines 68-75): KNN-impute
all columns, then restore the original index labels (`df.index = df_cp.index`). -/
def impute_missing_values_macro (df : Table) : Except String Table :=
  match knnImputeTable df with
  | .error e => .error e
  | .ok imputed =>
    .ok { imputed with rows := (imputed.rows.zip df.rows).map fun p => (p.2.1, p.1.2) }

/-! ### Rule-Based Filter — `handle_bad_data`, clean.py lines 78-118 -/

/-- Total comparison used to order mode candidates deterministically:
missing first, then numbers by value, then strings lexicographically
(`scipy.stats.mode` returns the smallest most-frequent value). -/
def cellLe : Cell → Cell → Bool
  | none, _ => true
  | some _, none => false
  | some (Value.num x), some (Value.num y) => decide (x ≤ y)
  | some (Value.num _), some (Value.str _) => true
  | some (Value.str _), some (Value.num _) => false
  | some (Value.str a), some (Value.str b) => lexLe a b

/-- One fold step of the mode computation: keep the candidate seen so far
unless the next (larger) candidate is strictly more frequent in `l`. -/
def modePick (l : List Cell) (acc : Option Cell) (c : Cell) : Option Cell :=
  match acc with
  | none => some c
  | some b => if l.count c > l.count b then some c else acc

/-- Statistical mode `stats.mode(values)[0][0]`: the most frequent value, the
smallest on a tie; `none` on an empty column (where scipy's result has no
element `[0][0]` and the subscript raises). -/
def modeCell (l : List Cell) : Option Cell :=
  (insSort cellLe l.dedup).foldl (modePick l) none

/-- Column positions of the ten columns `handle_bad_data` reads, resolved
against the header (clean.py lines 81-116). -/
structure BadCols where
  jlife : Nat
  jfull : Nat
  jkitch : Nat
  jbuild : Nat
  jmax : Nat
  jfl : Nat
  jcp : Nat
  jpq : Nat
  jcs : Nat
  jsq : Nat
  jstate : Nat
deriving DecidableEq

/-- Resolution of every column label `handle_bad_data` subscripts; the first
missing one raises `KeyError`.  `dropRows` never changes the header, so
resolving them up front is equivalent to the source's statement-by-statement
lookups. -/
def getBadCols (t : Table) : Except String BadCols :=
  match requireCol t "life_sq" with
  | .error e => .error e
  | .ok jlife =>
  match requireCol t "full_sq" with
  | .error e => .error e
  | .ok jfull =>
  match requireCol t "kitch_sq" with
  | .error e => .error e
  | .ok jkitch =>
  match requireCol t "build_year" with
  | .error e => .error e
  | .ok jbuild =>
  match requireCol t "max_floor" with
  | .error e => .error e
  | .ok jmax =>
  match requireCol t "floor" with
  | .error e => .error e
  | .ok jfl =>
  match requireCol t "children_preschool" with
  | .error e => .error e
  | .ok jcp =>
  match requireCol t "preschool_quota" with
  | .error e => .error e
  | .ok jpq =>
  match requireCol t "children_school" with
  | .error e => .error e
  | .ok jcs =>
  match requireCol t "school_quota" with
  | .error e => .error e
  | .ok jsq =>
  match requireCol t "state" with
  | .error e => .error e
  | .ok jstate => .ok ⟨jlife, jfull, jkitch, jbuild, jmax, jfl, jcp, jpq, jcs, jsq, jstate⟩

/-- The fourteen removal predicates of clean.py lines 81-108, in source order;
a row is dropped when the predicate is true. -/
def badPreds (c : BadCols) : List (Row → Bool) :=
  [ fun r => cellGT (r.cell c.jlife) (r.cell c.jfull),
    fun r => cellGT (r.cell c.jkitch) (r.cell c.jfull),
    fun r => cellEqL (r.cell c.jfull) 5326,
    fun r => cellLEL (r.cell c.jbuild) 1691,
    fun r => cellGTL (r.cell c.jbuild) 2018,
    fun r => cellGTL (r.cell c.jmax) 57,
    fun r => cellGT (r.cell c.jfl) (r.cell c.jmax),
    fun r => cellEqL (r.cell c.jfull) 0,
    fun r => cellEqL (r.cell c.jfull) 1,
    fun r => cellEqL (r.cell c.jmax) 0,
    fun r => cellLTL (r.cell c.jcp) 0,
    fun r => cellLTL (r.cell c.jpq) 0,
    fun r => cellLTL (r.cell c.jcs) 0,
    fun r => cellLTL (r.cell c.jsq) 0 ]

/-- Repair of clean.py line 112: a `state` cell equal to 33 becomes the column
mode `m`. -/
def stateFix (m : Cell) (c : Cell) : Cell := if c = some (Value.num 33) then m else c

/-- Repair of clean.py line 116: a `build_year` cell equal to 20052009 becomes
2007. -/
def buildFix (c : Cell) : Cell :=
  if c = some (Value.num 20052009) then some (Value.num 2007) else c

/-- Embedding of `handle_bad_data` (clean.py lines 78-118): fourteen row
removals in order, then the `state == 33` mode repair, then the
`build_year == 20052009` repair. -/
def handle_bad_data (t : Table) : Except String Table :=
  match getBadCols t with
  | .error e => .error e
  | .ok c =>
    match modeCell ((dropAll t (badPreds c)).col c.jstate) with
    | none => .error "IndexError: index 0 is out of bounds for axis 0 with size 0"
    | some m =>
      .ok (mapColCell (mapColCell (dropAll t (badPreds c)) c.jstate (stateFix m))
        c.jbuild buildFix)

/-! ### Macro pipeline — `clean_macro`, clean.py lines 131-136 -/

/-- Lookup of the global name `truncate_extreme_value` that clean.py line 133
calls: the module defines only `truncate_extreme_values` (line 23), so the
lookup finds nothing and the call raises `NameError`. -/
def lookupTruncateExtremeValue : Option (Table → Table) := none

/-- Embedding of `clean_macro` (clean.py lines 131-136): resolve and call
`truncate_extreme_value`, then encode categoricals, then impute.  Python
resolves the global at call time, so the undefined name makes every call fail
before the first transformation. -/
def clean_macro (df : Table) : Except String Table :=
  match lookupTruncateExtremeValue with
  | none => .error "NameError: name truncate_extreme_value is not defined"
  | some f => impute_missing_values_macro (convert_categorical_to_numerical (f df))

/-! ### Writer — output paths and writes, clean.py lines 139-167 -/

def TRAIN_OUT_PATH : String := "output/train.csv"

def TEST_OUT_PATH : String := "output/test.csv"

/-- Output path constant of clean.py line 147 — note it repeats the test path. -/
def MACRO_OUT_PATH : String := "output/test.csv"

/-- The three cleaned-table writes of clean.py lines 165-167, in program order. -/
def writeCleaned (tr te ma : Table) : List (String × Table) :=
  [(TRAIN_OUT_PATH, tr), (TEST_OUT_PATH, te), (MACRO_OUT_PATH, ma)]

/-- Contents of the file store after a write sequence: the last table written
to a path is the one the path holds. -/
def storeAfter (ws : List (String × Table)) (p : String) : Option Table :=
  ws.foldl (fun acc w => if w.1 = p then some w.2 else acc) none

/-! ### Joiner — `df.merge(..., how="left", left_on="timestamp", right_index=True)`,
clean.py lines 170-175 -/

/-- Embedding of the left join of clean.py lines 170-175: every row of the
left (transaction) table is looked up in the right (macro) table by comparing
its `timestamp` cell with the right table's index labels; matches contribute
their cells, a missed lookup contributes a full row of missing values.  Column
labels are assumed disjoint (pandas suffixing renames labels only, never
values), and a missing `timestamp` column raises `KeyError`. -/
def mergeLeft (l r : Table) : Except String Table :=
  match requireCol l "timestamp" with
  | .error e => .error e
  | .ok jts =>
    .ok { cols := l.cols ++ r.cols,
          rows := l.rows.flatMap fun row =>
            let ms := r.rows.filter fun m => decide (m.1 = row.cell jts)
            if ms.isEmpty then [(row.1, row.2 ++ List.replicate r.cols.length (none : Cell))]
            else ms.map fun m => (row.1, row.2 ++ m.2) }

/-- Right-hand cells a left row with key cell `k` receives from the (uniquely
keyed) right table `r`: the cells of the matching row, or all-missing. -/
def joinPart (r : Table) (k : Cell) : List Cell :=
  match r.rows.find? (fun m => decide (m.1 = k)) with
  | some m => m.2
  | none => List.replicate r.cols.length none

/-! ### Concrete tables used to instantiate the theorems -/

/-- Two transactions with `price_doc` 0 and 100 and no sentinel entries. -/
def truncProbeT : Table :=
  { cols := ["price_doc"],
    rows := [(some (Value.num 1), [some (Value.num 0)]),
             (some (Value.num 2), [some (Value.num 100)])] }

/-- The eleven column labels `handle_bad_data` touches, in a fixed order. -/
def badColNames : List String :=
  ["life_sq", "full_sq", "kitch_sq", "build_year", "max_floor", "floor",
   "children_preschool", "preschool_quota", "children_school", "school_quota", "state"]

/-- A table whose two rows survive every removal: both have `state = 33` (so the
column mode is 33) and the second has a missing `max_floor`. -/
def badModeT : Table :=
  { cols := badColNames,
    rows := [(some (Value.num 1),
              [some (Value.num 30), some (Value.num 50), some (Value.num 5),
               some (Value.num 2000), some (Value.num 10), some (Value.num 3),
               some (Value.num 1), some (Value.num 1), some (Value.num 1),
               some (Value.num 1), some (Value.num 33)]),
             (some (Value.num 2),
              [some (Value.num 30), some (Value.num 50), some (Value.num 5),
               some (Value.num 2000), none, some (Value.num 3),
               some (Value.num 1), some (Value.num 1), some (Value.num 1),
               some (Value.num 1), some (Value.num 33)])] }

/-- Four transactions: one with `state = 33` (repaired to the mode 1), two
valid ones, and one with `life_sq > full_sq` (removed). -/
def idemT : Table :=
  { cols := badColNames,
    rows := [(some (Value.num 1),
              [some (Value.num 30), some (Value.num 50), some (Value.num 5),
               some (Value.num 2000), some (Value.num 10), some (Value.num 3),
               some (Value.num 1), some (Value.num 1), some (Value.num 1),
               some (Value.num 1), some (Value.num 33)]),
             (some (Value.num 2),
              [some (Value.num 30), some (Value.num 50), some (Value.num 5),
               some (Value.num 2000), some (Value.num 10), some (Value.num 3),
               some (Value.num 1), some (Value.num 1), some (Value.num 1),
               some (Value.num 1), some (Value.num 1)]),
             (some (Value.num 3),
              [some (Value.num 30), some (Value.num 50), some (Value.num 5),
               some (Value.num 2000), some (Value.num 10), some (Value.num 3),
               some (Value.num 1), some (Value.num 1), some (Value.num 1),
               some (Value.num 1), some (Value.num 1)]),
             (some (Value.num 4),
              [some (Value.num 60), some (Value.num 50), some (Value.num 5),
               some (Value.num 2000), some (Value.num 10), some (Value.num 3),
               some (Value.num 1), some (Value.num 1), some (Value.num 1),
               some (Value.num 1), some (Value.num 1)])] }

/-- The table `handle_bad_data` produces from `idemT`: the `life_sq > full_sq`
row removed and the `state = 33` cell repaired to the mode 1. -/
def idemOut : Table :=
  { cols := badColNames,
    rows := [(some (Value.num 1),
              [some (Value.num 30), some (Value.num 50), some (Value.num 5),
               some (Value.num 2000), some (Value.num 10), some (Value.num 3),
               some (Value.num 1), some (Value.num 1), some (Value.num 1),
               some (Value.num 1), some (Value.num 1)]),
             (some (Value.num 2),
              [some (Value.num 30), some (Value.num 50), some (Value.num 5),
               some (Value.num 2000), some (Value.num 10), some (Value.num 3),
               some (Value.num 1), some (Value.num 1), some (Value.num 1),
               some (Value.num 1), some (Value.num 1)]),
             (some (Value.num 3),
              [some (Value.num 30), some (Value.num 50), some (Value.num 5),
               some (Value.num 2000), some (Value.num 10), some (Value.num 3),
               some (Value.num 1), some (Value.num 1), some (Value.num 1),
               some (Value.num 1), some (Value.num 1)])] }

/-- A one-row data table: the impute wrapper moves `timestamp` to the end and
resets the index label 7 to the position 0. -/
def tinyDataT : Table :=
  { cols := ["timestamp", "a"],
    rows := [(some (Value.num 7), [some (Value.str "d1"), some (Value.num 1)])] }

/-- A two-row data table with one missing `a` cell, for the imputer theorems. -/
def gapDataT : Table :=
  { cols := ["timestamp", "a"],
    rows := [(some (Value.num 1), [some (Value.str "d1"), none]),
             (some (Value.num 2), [some (Value.str "d2"), some (Value.num 4)])] }

/-- A two-row, timestamp-keyed economic-indicator table with one missing cell. -/
def gapIndT : Table :=
  { cols := ["cpi"],
    rows := [(some (Value.str "2011-08-20"), [none]),
             (some (Value.str "2011-08-21"), [some (Value.num 2)])] }

/-- The table the data-variant imputation produces from `gapDataT`: the gap
filled with 4, `timestamp` moved last, index reset to 0, 1. -/
def gapOutD : Table :=
  { cols := ["a", "timestamp"],
    rows := [(some (Value.num 0), [some (Value.num 4), some (Value.str "d1")]),
             (some (Value.num 1), [some (Value.num 4), some (Value.str "d2")])] }

/-- The table the macro-variant imputation produces from `gapIndT`: the gap
filled with 2 and the original index labels restored. -/
def gapOutM : Table :=
  { cols := ["cpi"],
    rows := [(some (Value.str "2011-08-20"), [some (Value.num 2)]),
             (some (Value.str "2011-08-21"), [some (Value.num 2)])] }

/-- A three-row table with a textual `product_type` column, a textual
`timestamp` column and a numeric `full_sq` column, for the encoder theorems. -/
def encT : Table :=
  { cols := ["timestamp", "product_type", "full_sq"],
    rows := [(some (Value.num 1),
              [some (Value.str "2011-08-20"), some (Value.str "Investment"),
               some (Value.num 40)]),
             (some (Value.num 2),
              [some (Value.str "2011-08-21"), some (Value.str "OwnerOccupier"),
               some (Value.num 50)]),
             (some (Value.num 3),
              [some (Value.str "2011-08-22"), some (Value.str "Investment"), none])] }

/-- Two transactions, one whose timestamp appears in `joinRightT` and one whose
timestamp does not. -/
def joinLeftT : Table :=
  { cols := ["timestamp", "price_doc"],
    rows := [(some (Value.num 1), [some (Value.str "2011-08-20"), some (Value.num 100)]),
             (some (Value.num 2), [some (Value.str "2015-01-01"), some (Value.num 200)])] }

/-- A one-row timestamp-keyed table of indicator values. -/
def joinRightT : Table :=
  { cols := ["cpi"],
    rows := [(some (Value.str "2011-08-20"), [some (Value.num 7)])] }

/-- The left join of `joinLeftT` with `joinRightT`. -/
def mergeLeftOutT : Table :=
  { cols := ["timestamp", "price_doc", "cpi"],
    rows := [(some (Value.num 1),
              [some (Value.str "2011-08-20"), some (Value.num 100), some (Value.num 7)]),
             (some (Value.num 2),
              [some (Value.str "2015-01-01"), some (Value.num 200), none])] }

/-! ## Generic list lemmas -/

theorem set_getD_self {α : Type} (l : List α) (n : Nat) (d : α) :
    l.set n (l.getD n d) = l := by
  induction l generalizing n with
  | nil => rfl
  | cons a l ih =>
    cases n with
    | zero => rfl
    | succ n => simpa [List.set, List.getD] using ih n

theorem getD_set_formula {α : Type} (l : List α) (j i : Nat) (v : α) (d : α) :
    (l.set j v).getD i d = if i = j ∧ j < l.length then v else l.getD i d := by
  by_cases hij : j = i
  · subst hij
    by_cases hj : j < l.length
    · rw [if_pos ⟨rfl, hj⟩]
      simp [List.getD_eq_getElem?_getD, List.getElem?_set, hj]
    · rw [if_neg (fun h => hj h.2)]
      have hlen : (l.set j v).length ≤ j := by simpa using Nat.le_of_not_lt hj
      simp [List.getD_eq_getElem?_getD, List.getElem?_eq_none hlen,
        List.getElem?_eq_none (Nat.le_of_not_lt hj)]
  · rw [if_neg (fun h => hij h.1.symm)]
    simp [List.getD_eq_getElem?_getD, List.getElem?_set, hij]

theorem map_getD_range {α : Type} (l : List α) (d : α) :
    (List.range l.length).map (fun j => l.getD j d) = l := by
  apply List.ext_getElem?
  intro n
  simp only [List.getElem?_map]
  by_cases hn : n < l.length
  · simp [List.getElem?_range hn, List.getD_eq_getElem?_getD, List.getElem?_eq_getElem hn]
  · simp [List.getElem?_eq_none (Nat.le_of_not_lt hn),
      List.getElem?_eq_none (l := List.range l.length) (by simpa using Nat.le_of_not_lt hn)]

theorem flatMap_eq_map_of_singleton {α β : Type} (f : α → List β) (g : α → β)
    (l : List α) (h : ∀ x ∈ l, f x = [g x]) : l.flatMap f = l.map g := by
  induction l with
  | nil => rfl
  | cons a l ih =>
    simp only [List.flatMap_cons, List.map_cons, h a (List.mem_cons_self a l)]
    simp only [List.singleton_append, List.cons.injEq, true_and]
    exact ih (fun x hx => h x (List.mem_cons_of_mem a hx))

theorem map_fst_zip_of_length {α β : Type} (l : List α) (v : List β)
    (h : l.length = v.length) : (l.zip v).map Prod.fst = l :=
  List.map_fst_zip l v (Nat.le_of_eq h)

theorem map_snd_zip_of_length {α β : Type} (l : List α) (v : List β)
    (h : v.length = l.length) : (l.zip v).map Prod.snd = v :=
  List.map_snd_zip l v (Nat.le_of_eq h)

theorem union_eq_right_of_subset {α : Type} [DecidableEq α] (l₁ l₂ : List α)
    (h : ∀ a ∈ l₁, a ∈ l₂) : l₁ ∪ l₂ = l₂ := by
  induction l₁ with
  | nil => rfl
  | cons a l ih =>
    have : (a :: l) ∪ l₂ = List.insert a (l ∪ l₂) := rfl
    rw [this, ih (fun x hx => h x (List.mem_cons_of_mem a hx))]
    exact List.insert_of_mem (by simpa using h a (List.mem_cons_self a l))

/-! ## Insertion-sort lemmas -/

theorem insSorted_perm {α : Type} (le : α → α → Bool) (a : α) (l : List α) :
    (insSorted le a l).Perm (a :: l) := by
  induction l with
  | nil => exact List.Perm.refl _
  | cons b l ih =>
    by_cases h : le a b
    · simp [insSorted, h]
    · simp only [insSorted, h, if_false]
      exact (List.Perm.cons b ih).trans (List.Perm.swap a b l)

theorem insSort_perm {α : Type} (le : α → α → Bool) (l : List α) :
    (insSort le l).Perm l := by
  induction l with
  | nil => exact List.Perm.refl _
  | cons a l ih => exact (insSorted_perm le a (insSort le l)).trans (ih.cons a)

theorem mem_insSort {α : Type} (le : α → α → Bool) (l : List α) (x : α) :
    x ∈ insSort le l ↔ x ∈ l :=
  (insSort_perm le l).mem_iff

theorem insSorted_pairwise {α : Type} (le : α → α → Bool)
    (htrans : ∀ a b c, le a b = true → le b c = true → le a c = true)
    (htot : ∀ a b, le a b || le b a) (a : α) (l : List α)
    (hl : l.Pairwise (fun x y => le x y = true)) :
    (insSorted le a l).Pairwise (fun x y => le x y = true) := by
  induction l with
  | nil => simp [insSorted]
  | cons b l ih =>
    rcases List.pairwise_cons.mp hl with ⟨hb, hl'⟩
    by_cases h : le a b
    · simp only [insSorted, h, if_true]
      refine List.pairwise_cons.mpr ⟨?_, hl⟩
      intro x hx
      rcases List.mem_cons.mp hx with rfl | hx
      · exact h
      · exact htrans a b x h (hb x hx)
    · simp only [insSorted, h, if_false]
      refine List.pairwise_cons.mpr ⟨?_, ih hl'⟩
      intro x hx
      rcases List.mem_cons.mp ((insSorted_perm le a l).mem_iff.mp hx) with rfl | hx'
      · have := htot x b
        simp only [h, Bool.false_or] at this
        exact this
      · exact hb x hx'

theorem insSort_pairwise {α : Type} (le : α → α → Bool)
    (htrans : ∀ a b c, le a b = true → le b c = true → le a c = true)
    (htot : ∀ a b, le a b || le b a) (l : List α) :
    (insSort le l).Pairwise (fun x y => le x y = true) := by
  induction l with
  | nil => simp [insSort]
  | cons a l ih => exact insSorted_pairwise le htrans htot a (insSort le l) ih

/-! ## Lexicographic-order lemmas -/

theorem charListLe_total (a b : List Char) : charListLe a b || charListLe b a := by
  induction a generalizing b with
  | nil => simp [charListLe]
  | cons x xs ih =>
    cases b with
    | nil => simp [charListLe]
    | cons y ys =>
      rcases lt_trichotomy x y with h | h | h
      · simp [charListLe, h]
      · subst h
        simpa [charListLe] using ih ys
      · simp [charListLe, h, not_lt_of_lt h]

theorem charListLe_trans (a b c : List Char) (h1 : charListLe a b = true)
    (h2 : charListLe b c = true) : charListLe a c = true := by
  induction a generalizing b c with
  | nil => simp [charListLe]
  | cons x xs ih =>
    cases b with
    | nil => simp [charListLe] at h1
    | cons y ys =>
      cases c with
      | nil => simp [charListLe] at h2
      | cons z zs =>
        rcases lt_trichotomy x y with hxy | hxy | hxy
        · rcases lt_trichotomy y z with hyz | hyz | hyz
          · simp [charListLe, lt_trans hxy hyz]
          · subst hyz
            simp [charListLe, hxy]
          · simp [charListLe, hyz, not_lt_of_lt hyz] at h2
        · subst hxy
          rcases lt_trichotomy x z with hxz | hxz | hxz
          · simp [charListLe, hxz]
          · subst hxz
            simp only [charListLe, lt_irrefl, if_false] at h1 h2 ⊢
            exact ih ys zs h1 h2
          · simp [charListLe, hxz, not_lt_of_lt hxz] at h2
        · simp [charListLe, hxy, not_lt_of_lt hxy] at h1

theorem lexLe_total (a b : String) : lexLe a b || lexLe b a := charListLe_total a.data b.data

theorem lexLe_trans (a b c : String) (h1 : lexLe a b = true) (h2 : lexLe b c = true) :
    lexLe a c = true := charListLe_trans a.data b.data c.data h1 h2

/-! ## Categorical Encoder lemmas -/

theorem lblClasses_nodup (xs : List String) : (lblClasses xs).Nodup :=
  ((insSort_perm lexLe xs.dedup).symm).nodup (List.nodup_dedup xs)

theorem mem_lblClasses (xs : List String) (s : String) : s ∈ lblClasses xs ↔ s ∈ xs := by
  rw [lblClasses, mem_insSort, List.mem_dedup]

theorem lblClasses_sorted (xs : List String) :
    (lblClasses xs).Pairwise (fun a b => lexLe a b = true) :=
  insSort_pairwise lexLe lexLe_trans lexLe_total xs.dedup

theorem lblClasses_length (xs : List String) : (lblClasses xs).length = xs.dedup.length :=
  (insSort_perm lexLe xs.dedup).length_eq

theorem lblClasses_append_self (xs : List String) : lblClasses (xs ++ xs) = lblClasses xs := by
  rw [lblClasses, List.dedup_append,
    union_eq_right_of_subset xs xs.dedup (fun a ha => (List.mem_dedup).mpr ha), lblClasses]

theorem getD_map_range {α : Type} (n j : Nat) (f : Nat → α) (d : α) (h : j < n) :
    ((List.range n).map f).getD j d = f j := by
  simp [List.getD_eq_getElem?_getD, List.getElem?_map, List.getElem?_range h]

theorem convert_cols (t : Table) : (convert_categorical_to_numerical t).cols = t.cols := rfl

theorem convert_col_enc (t : Table) (j : Nat) (hj : j < t.cols.length)
    (he : encCol t j = true) :
    (convert_categorical_to_numerical t).col j =
      (t.col j).map (fun c => some (Value.num (lblTransform (colClasses t j) (pyStr c)))) := by
  simp only [Table.col, convert_categorical_to_numerical, List.map_map]
  refine List.map_congr_left (fun r _ => ?_)
  simp only [Function.comp, Row.cell, getD_map_range t.cols.length j _ none hj, he, if_true]

theorem convert_col_notenc (t : Table) (j : Nat) (hj : j < t.cols.length)
    (he : encCol t j = false) :
    (convert_categorical_to_numerical t).col j = t.col j := by
  simp only [Table.col, convert_categorical_to_numerical, List.map_map]
  refine List.map_congr_left (fun r _ => ?_)
  simp only [Function.comp, Row.cell]
  rw [getD_map_range t.cols.length j _ none hj]
  simp [he]

theorem colClasses_eq_once (t : Table) (j : Nat) :
    colClasses t j = lblClasses ((t.col j).map pyStr) := by
  rw [colClasses, colFitList, lblClasses_append_self]

/-- C8: after the Categorical Encoder runs, every originally-textual
(object-dtype) column other than `timestamp` holds only the dense integer code
of its cell's string form; the codes are non-negative integers below the
distinct-string count; the fitted class list is duplicate-free, strictly
lexicographically ascending, contains exactly the column's distinct string
forms, and position-in-list is a bijection onto `[0, distinct_count-1]`; and
already-numeric columns and the timestamp column are unchanged. -/
theorem c8_encoder (t : Table) :
    (convert_categorical_to_numerical t).cols = t.cols ∧
    (∀ j, j < t.cols.length → encCol t j = true →
      ((convert_categorical_to_numerical t).col j =
          (t.col j).map (fun c => some (Value.num (lblTransform (colClasses t j) (pyStr c)))) ∧
        (∀ c ∈ t.col j,
          lblTransform (colClasses t j) (pyStr c) < ((t.col j).map pyStr).dedup.length) ∧
        (colClasses t j).Nodup ∧
        (colClasses t j).Pairwise (fun a b => lexLe a b = true ∧ a ≠ b) ∧
        (∀ s, s ∈ colClasses t j ↔ s ∈ (t.col j).map pyStr) ∧
        (colClasses t j).length = ((t.col j).map pyStr).dedup.length ∧
        (∀ a ∈ colClasses t j, ∀ b ∈ colClasses t j,
          lblTransform (colClasses t j) a = lblTransform (colClasses t j) b → a = b) ∧
        (∀ k, k < (colClasses t j).length →
          ∃ s ∈ colClasses t j, lblTransform (colClasses t j) s = k))) ∧
    (∀ j, j < t.cols.length → encCol t j = false →
      (convert_categorical_to_numerical t).col j = t.col j) := by
  refine ⟨convert_cols t, fun j hj he => ?_, fun j hj he => convert_col_notenc t j hj he⟩
  rw [colClasses_eq_once]
  set S := (t.col j).map pyStr with hS
  set L := lblClasses S with hL
  have hnd : L.Nodup := lblClasses_nodup S
  have hlen : L.length = S.dedup.length := lblClasses_length S
  refine ⟨by rw [convert_col_enc t j hj he, colClasses_eq_once], ?_, hnd, ?_, ?_, hlen, ?_, ?_⟩
  · intro c hc
    rw [← hlen]
    exact List.indexOf_lt_length.mpr ((mem_lblClasses S _).mpr (List.mem_map_of_mem pyStr hc))
  · exact (lblClasses_sorted S).and hnd
  · exact fun s => mem_lblClasses S s
  · intro a ha b hb heq
    have ha' : L.indexOf a < L.length := List.indexOf_lt_length.mpr ha
    have hb' : L.indexOf b < L.length := List.indexOf_lt_length.mpr hb
    have hga := List.indexOf_get ha'
    have hgb := List.indexOf_get hb'
    rw [← hga, ← hgb]
    congr 1
    exact Fin.ext heq
  · intro k hk
    refine ⟨L.get ⟨k, hk⟩, List.get_mem L k hk, ?_⟩
    exact List.get_indexOf hnd ⟨k, hk⟩

/-- C8 witness: on `encT`, the textual `product_type` column is coded 0/1/0
(`Investment` before `OwnerOccupier` lexicographically) and the numeric
`full_sq` column is unchanged. -/
theorem c8_encoder_witness :
    (convert_categorical_to_numerical encT).col 1 =
      [some (Value.num 0), some (Value.num 1), some (Value.num 0)] ∧
    (convert_categorical_to_numerical encT).col 2 = encT.col 2 := by
  have h := c8_encoder encT
  constructor
  · rw [(h.2.1 1 (by decide) (by decide)).1]
    with_unfolding_all rfl
  · exact h.2.2 2 (by decide) (by decide)

/-! ## Outlier Truncator theorems -/

theorem tup_not_mem_str_map (c : String × ℚ × ℚ) (cols : List String) :
    PyLabel.tup c ∉ cols.map PyLabel.str := by
  simp [List.mem_map]

/-- C1: the claim says the Outlier Truncator clips each configured column into
its sentinel-free `[low, high]` percentile range.  In the code the guard
`col in df.columns` (clean.py line 27) tests the whole (name, hi, lo) tuple
against the string column labels, never matches, and the function is the
identity; on a `price_doc` column `[0, 100]` the value 100 stays although it
exceeds the 99.5th percentile 99.5. -/
theorem c1_truncator_dead_guard :
    (∀ df, truncate_extreme_values df = df) ∧
    npPercentile (sentinelFiltered ((truncProbeT.col 0).filterMap cellNum)) (199/2) < 100 ∧
    some (Value.num 100) ∈ (truncate_extreme_values truncProbeT).col 0 := by
  refine ⟨fun df => ?_, by with_unfolding_all decide, by with_unfolding_all decide⟩
  simp [truncate_extreme_values, truncConfig, tup_not_mem_str_map]

/-! ## Macro-pipeline and Writer theorems -/

/-- C2: the claim says `clean_macro` applies truncation, encoding and
imputation and succeeds on well-formed input; in the code line 133 calls the
undefined global `truncate_extreme_value` (the definition is named
`truncate_extreme_values`), so every call raises `NameError` before any
transformation runs. -/
theorem c2_undefined_name_fails :
    ∀ df, clean_macro df = .error "NameError: name truncate_extreme_value is not defined" :=
  fun _ => rfl

/-- C3: the claim says the three cleaned tables go to three distinct outputs
and the test output survives the macro write; in the code `MACRO_OUT_PATH`
(clean.py line 147) repeats `"output/test.csv"`, so after the three writes of
lines 165-167 the test path holds the cleaned macro table, not the cleaned
test table. -/
theorem c3_test_output_overwritten :
    ∀ tr te ma : Table,
      MACRO_OUT_PATH = TEST_OUT_PATH ∧
      storeAfter (writeCleaned tr te ma) TEST_OUT_PATH = some ma ∧
      storeAfter (writeCleaned tr te ma) TRAIN_OUT_PATH = some tr := by
  intro tr te ma
  refine ⟨rfl, ?_, ?_⟩ <;>
    simp [storeAfter, writeCleaned, TRAIN_OUT_PATH, TEST_OUT_PATH, MACRO_OUT_PATH]

/-- C10: fitting the LabelEncoder on the column's string values concatenated
with themselves (as clean.py lines 50-52 do) yields exactly the same value→code
mapping and the same encoded table as fitting on the value list once, since
duplication does not change the set of distinct strings. -/
theorem c10_duplicated_fit (t : Table) :
    convert_categorical_to_numerical t = convert_once t := by
  simp only [convert_categorical_to_numerical, convert_once, colClasses, colFitList,
    lblClasses_append_self]

/-- C10 witness: the two encoders agree on the concrete table `encT`. -/
theorem c10_duplicated_fit_witness :
    convert_categorical_to_numerical encT = convert_once encT :=
  c10_duplicated_fit encT

/-! ## Imputer lemmas -/

theorem knnFill_rows_length (t : Table) : (knnFillTable t).rows.length = t.rows.length := by
  simp [knnFillTable]

theorem knnFill_cols_length (t : Table) :
    (knnFillTable t).cols.length = (keptIdx t).length := by
  simp [knnFillTable]

theorem knnFill_row_mem (t : Table) (r : Row) (hr : r ∈ (knnFillTable t).rows) :
    r.2.length = (keptIdx t).length ∧
    (∀ j, j < (keptIdx t).length → ∃ q : ℚ, r.2.getD j none = some (Value.num q)) := by
  simp only [knnFillTable, List.mem_map] at hr
  obtain ⟨i, _, rfl⟩ := hr
  refine ⟨by simp, fun j hj => ?_⟩
  have hcell : ((keptIdx t).map fun j =>
      match cellNum ((t.rows.getD i (none, [])).2.getD j none) with
      | some q => some (Value.num q)
      | none => some (Value.num (knnValue t i j))).getD j none =
      (match cellNum ((t.rows.getD i (none, [])).2.getD ((keptIdx t).get ⟨j, hj⟩) none) with
      | some q => some (Value.num q)
      | none => some (Value.num (knnValue t i ((keptIdx t).get ⟨j, hj⟩))) : Cell) := by
    simp [List.getD_eq_getElem?_getD, List.getElem?_map, List.getElem?_eq_getElem hj]
  rw [hcell]
  rcases hcn : cellNum ((t.rows.getD i (none, [])).2.getD ((keptIdx t).get ⟨j, hj⟩) none) with
    _ | q
  · exact ⟨knnValue t i ((keptIdx t).get ⟨j, hj⟩), rfl⟩
  · exact ⟨q, rfl⟩

theorem knnFill_index (t : Table) :
    (knnFillTable t).rows.map Prod.fst =
      (List.range t.rows.length).map (fun (i : Nat) => some (Value.num (i : ℚ))) := by
  simp only [knnFillTable, List.map_map]
  rfl

theorem knnImpute_ok (t t' : Table) (h : knnImputeTable t = .ok t') :
    t' = knnFillTable t := by
  unfold knnImputeTable at h
  split at h
  · exact absurd h (by simp)
  · injection h with h'
    exact h'.symm

theorem impute_data_ok (df t' : Table) (jts : Nat)
    (hts : requireCol df "timestamp" = .ok jts)
    (h : impute_missing_values_data df = .ok t') :
    t' = appendCol (knnFillTable (dropColAt df jts)) "timestamp" (df.col jts) := by
  unfold impute_missing_values_data at h
  split at h
  · exact absurd h (by simp)
  · rename_i jts' heq
    rw [hts] at heq
    injection heq with heq'
    subst heq'
    split at h
    · exact absurd h (by simp)
    · rename_i imputed heq2
      injection h with h'
      rw [← h', knnImpute_ok _ _ heq2]

theorem impute_macro_ok (m m' : Table)
    (h : impute_missing_values_macro m = .ok m') :
    m' = { knnFillTable m with
           rows := ((knnFillTable m).rows.zip m.rows).map fun p => (p.2.1, p.1.2) } := by
  unfold impute_missing_values_macro at h
  split at h
  · exact absurd h (by simp)
  · rename_i imputed heq
    injection h with h'
    rw [← h', knnImpute_ok _ _ heq]

theorem dropColAt_rows_length (t : Table) (j : Nat) :
    (dropColAt t j).rows.length = t.rows.length := by
  simp [dropColAt]

theorem col_length (t : Table) (j : Nat) : (t.col j).length = t.rows.length := by
  simp [Table.col]

theorem appendCol_cols (t : Table) (n : String) (vs : List Cell) :
    (appendCol t n vs).cols = t.cols ++ [n] := rfl

theorem appendCol_rows_length (t : Table) (n : String) (vs : List Cell)
    (h : vs.length = t.rows.length) :
    (appendCol t n vs).rows.length = t.rows.length := by
  simp [appendCol, List.length_zip, h]

/-- Shape of a successful data-variant imputation: row count preserved, the
row-index labels reset to `0 … n-1`, the original `timestamp` cells re-attached
as the cells of the last column position, and every cell left of it numeric. -/
theorem impute_data_shape (df t' : Table) (jts : Nat)
    (hts : requireCol df "timestamp" = .ok jts)
    (hd : impute_missing_values_data df = .ok t') :
    t'.cols = (knnFillTable (dropColAt df jts)).cols ++ ["timestamp"] ∧
    t'.rows.length = df.rows.length ∧
    t'.rows.map Prod.fst =
      (List.range df.rows.length).map (fun (i : Nat) => some (Value.num (i : ℚ))) ∧
    t'.col ((knnFillTable (dropColAt df jts)).cols.length) = df.col jts ∧
    (∀ r ∈ t'.rows, ∀ j, j < (knnFillTable (dropColAt df jts)).cols.length →
      ∃ q : ℚ, r.cell j = some (Value.num q)) := by
  have hd' := impute_data_ok df t' jts hts hd
  subst hd'
  set dr := dropColAt df jts with hdr
  set K := knnFillTable dr with hK
  have hKlen : K.rows.length = df.rows.length := by
    rw [hK, knnFill_rows_length, hdr, dropColAt_rows_length]
  have hvals : (df.col jts).length = df.rows.length := col_length df jts
  have hzlen : (K.rows.zip (df.col jts)).length = df.rows.length := by
    simp [List.length_zip, hKlen, hvals]
  have hrowlen : ∀ p ∈ K.rows.zip (df.col jts), p.1.2.length = K.cols.length := by
    intro p hp
    have hmem := List.of_mem_zip hp
    rw [(knnFill_row_mem dr p.1 hmem.1).1, knnFill_cols_length]
  refine ⟨rfl, ?_, ?_, ?_, ?_⟩
  · simpa [appendCol] using hzlen
  · rw [show (appendCol K "timestamp" (df.col jts)).rows.map Prod.fst =
        ((K.rows.zip (df.col jts)).map Prod.fst).map Prod.fst by
          simp [appendCol, List.map_map]]
    rw [map_fst_zip_of_length K.rows (df.col jts) (by rw [hKlen, hvals]),
      hK, knnFill_index, hdr, dropColAt_rows_length]
  · have hcell : ∀ p ∈ K.rows.zip (df.col jts),
        Row.cell (p.1.1, p.1.2 ++ [p.2]) K.cols.length = p.2 := by
      intro p hp
      have hl := hrowlen p hp
      simp [Row.cell, List.getD_eq_getElem?_getD, List.getElem?_append_right (Nat.le_of_eq hl.symm), hl]
    calc (appendCol K "timestamp" (df.col jts)).col K.cols.length
        = (K.rows.zip (df.col jts)).map
            (fun p => Row.cell (p.1.1, p.1.2 ++ [p.2]) K.cols.length) := by
          simp [appendCol, Table.col, List.map_map]
      _ = (K.rows.zip (df.col jts)).map Prod.snd := List.map_congr_left hcell
      _ = df.col jts := map_snd_zip_of_length K.rows (df.col jts) (by rw [hKlen, hvals])
  · intro r hr j hj
    simp only [appendCol, List.mem_map] at hr
    obtain ⟨p, hp, rfl⟩ := hr
    have hmem := List.of_mem_zip hp
    obtain ⟨hlen2, hcells⟩ := knnFill_row_mem dr p.1 hmem.1
    have hjlt : j < p.1.2.length := by rw [hlen2, ← knnFill_cols_length dr]; exact hj
    have : Row.cell (p.1.1, p.1.2 ++ [p.2]) j = p.1.2.getD j none := by
      simp [Row.cell, List.getD_eq_getElem?_getD, List.getElem?_append, hjlt]
    rw [this]
    exact hcells j (by rw [← knnFill_cols_length dr]; exact hj)

/-- Shape of a successful macro-variant imputation: row count and index labels
preserved, every cell numeric. -/
theorem impute_macro_shape (m m' : Table)
    (hm : impute_missing_values_macro m = .ok m') :
    m'.cols = (knnFillTable m).cols ∧
    m'.rows.length = m.rows.length ∧
    m'.rows.map Prod.fst = m.rows.map Prod.fst ∧
    (∀ r ∈ m'.rows, ∀ j, j < m'.cols.length → ∃ q : ℚ, r.cell j = some (Value.num q)) := by
  have hm' := impute_macro_ok m m' hm
  subst hm'
  set K := knnFillTable m with hK
  have hKlen : K.rows.length = m.rows.length := by rw [hK, knnFill_rows_length]
  have hzlen : (K.rows.zip m.rows).length = m.rows.length := by
    simp [List.length_zip, hKlen]
  refine ⟨rfl, by simpa using hzlen, ?_, ?_⟩
  · rw [show ((K.rows.zip m.rows).map fun p => ((p.2.1 : Cell), p.1.2)).map Prod.fst =
        ((K.rows.zip m.rows).map Prod.snd).map Prod.fst by simp [List.map_map]]
    rw [map_snd_zip_of_length K.rows m.rows hKlen.symm]
  · intro r hr j hj
    simp only [List.mem_map] at hr
    obtain ⟨p, hp, rfl⟩ := hr
    have hmem := List.of_mem_zip hp
    obtain ⟨hlen2, hcells⟩ := knnFill_row_mem m p.1 hmem.1
    exact hcells j (by rw [← knnFill_cols_length m]; exact hj)

/-- C5: after the Imputer runs (data variant with `timestamp` held out, macro
variant over all columns), no surviving column except the reattached
`timestamp` column contains a missing value, and row count and positional row
order are unchanged (the data variant carries each row's original timestamp
cell at the same position, the macro variant its original index label). -/
theorem c5_imputer_no_missing (d d' m m' : Table) (jts : Nat)
    (hts : requireCol d "timestamp" = .ok jts)
    (hd : impute_missing_values_data d = .ok d')
    (hm : impute_missing_values_macro m = .ok m') :
    (d'.rows.length = d.rows.length ∧
      (∀ r ∈ d'.rows, ∀ j, j < d'.cols.length → d'.cols.getD j "" ≠ "timestamp" →
        (cellNum (r.cell j)).isSome = true) ∧
      d'.col (d'.cols.length - 1) = d.col jts) ∧
    (m'.rows.length = m.rows.length ∧
      m'.rows.map Prod.fst = m.rows.map Prod.fst ∧
      (∀ r ∈ m'.rows, ∀ j, j < m'.cols.length → (cellNum (r.cell j)).isSome = true)) := by
  obtain ⟨hcols, hlen, _, hlast, hcells⟩ := impute_data_shape d d' jts hts hd
  obtain ⟨_, hlen2, hidx2, hcells2⟩ := impute_macro_shape m m' hm
  set K := knnFillTable (dropColAt d jts) with hK
  have hclen : d'.cols.length = K.cols.length + 1 := by rw [hcols]; simp
  refine ⟨⟨hlen, ?_, ?_⟩, hlen2, hidx2, ?_⟩
  · intro r hr j hj hne
    rw [hclen] at hj
    rcases Nat.lt_or_ge j K.cols.length with hlt | hge
    · obtain ⟨q, hq⟩ := hcells r hr j hlt
      rw [hq]
      rfl
    · exfalso
      apply hne
      have hjeq : j = K.cols.length := Nat.le_antisymm (Nat.lt_succ_iff.mp hj) hge
      subst hjeq
      rw [hcols]
      simp [List.getD_eq_getElem?_getD, List.getElem?_append_right (Nat.le_refl _)]
  · rw [hclen]
    simpa using hlast
  · intro r hr j hj
    obtain ⟨q, hq⟩ := hcells2 r hr j hj
    rw [hq]
    rfl

/-- C5 witness: on the concrete gap tables, the data variant keeps both rows
and reattaches the timestamp cells, and the macro variant keeps the index. -/
theorem c5_imputer_no_missing_witness :
    gapOutD.rows.length = gapDataT.rows.length ∧
    gapOutD.col (gapOutD.cols.length - 1) = gapDataT.col 0 ∧
    gapOutM.rows.map Prod.fst = gapIndT.rows.map Prod.fst := by
  have h := c5_imputer_no_missing gapDataT gapOutD gapIndT gapOutM 0
    (by with_unfolding_all rfl) (by with_unfolding_all rfl) (by with_unfolding_all rfl)
  exact ⟨h.1.1, h.1.2.2, h.2.2.1⟩

/-- C4 counterexample: on the one-row table `tinyDataT` (index label 7, columns
`timestamp`, `a`) the data-variant Imputer returns columns `a`, `timestamp`
(the column order changed) and index label 0 (row identity not preserved), so
the claim as stated is false. -/
theorem c4_counterexample :
    impute_missing_values_data tinyDataT =
      .ok { cols := ["a", "timestamp"],
            rows := [(some (Value.num 0), [some (Value.num 1), some (Value.str "d1")])] } ∧
    (["a", "timestamp"] : List String) ≠ tinyDataT.cols ∧
    [(some (Value.num 0) : Cell)] ≠ tinyDataT.rows.map Prod.fst := by
  refine ⟨by with_unfolding_all rfl, by decide, by decide⟩

/-- C4 (amended): for a data table whose timestamp column resolves at `jts` and
whose other columns each hold at least one observed number, the Imputer
preserves row count and positional row order and reattaches the original
timestamp values unchanged by row position — but as the *last* column, with
the other columns in their input order before it, and with the row index reset
to the positions `0 … n-1` instead of the input labels. -/
theorem c4_imputer_layout (d d' : Table) (jts : Nat)
    (hts : requireCol d "timestamp" = .ok jts)
    (hd : impute_missing_values_data d = .ok d')
    (hobs : ∀ j, j < (dropColAt d jts).cols.length →
      ((dropColAt d jts).col j).any (fun c => (cellNum c).isSome) = true) :
    d'.cols = (dropColAt d jts).cols ++ ["timestamp"] ∧
    d'.rows.length = d.rows.length ∧
    d'.rows.map Prod.fst =
      (List.range d.rows.length).map (fun (i : Nat) => some (Value.num (i : ℚ))) ∧
    d'.col (d'.cols.length - 1) = d.col jts := by
  obtain ⟨hcols, hlen, hidx, hlast, _⟩ := impute_data_shape d d' jts hts hd
  have hkept : keptIdx (dropColAt d jts) = List.range (dropColAt d jts).cols.length := by
    apply List.filter_eq_self.mpr
    intro j hj
    exact hobs j (List.mem_range.mp hj)
  have hKcols : (knnFillTable (dropColAt d jts)).cols = (dropColAt d jts).cols := by
    show (keptIdx (dropColAt d jts)).map (fun j => (dropColAt d jts).cols.getD j "") = _
    rw [hkept, map_getD_range]
  refine ⟨by rw [hcols, hKcols], hlen, hidx, ?_⟩
  rw [hcols]
  simpa using hlast

/-- C4 witness: the amended layout statement instantiated on `gapDataT`. -/
theorem c4_imputer_layout_witness :
    gapOutD.cols = (dropColAt gapDataT 0).cols ++ ["timestamp"] ∧
    gapOutD.rows.length = gapDataT.rows.length ∧
    gapOutD.rows.map Prod.fst =
      (List.range gapDataT.rows.length).map (fun (i : Nat) => some (Value.num (i : ℚ))) ∧
    gapOutD.col (gapOutD.cols.length - 1) = gapDataT.col 0 :=
  c4_imputer_layout gapDataT gapOutD 0 (by with_unfolding_all rfl)
    (by with_unfolding_all rfl) (by decide)

/-! ## Joiner lemmas -/

theorem filter_key_eq_find (rs : List Row) (k : Cell)
    (hnd : (rs.map Prod.fst).Nodup) :
    rs.filter (fun m => decide (m.1 = k)) =
      (match rs.find? (fun m => decide (m.1 = k)) with
       | some m => [m]
       | none => ([] : List Row)) := by
  induction rs with
  | nil => rfl
  | cons m0 rs ih =>
    simp only [List.map_cons, List.nodup_cons] at hnd
    by_cases hm : m0.1 = k
    · subst hm
      rw [List.filter_cons_of_pos (by simp), List.find?_cons_of_pos _ (by simp)]
      have hnil : rs.filter (fun m => decide (m.1 = m0.1)) = [] := by
        apply List.filter_eq_nil_iff.mpr
        intro x hx
        simp only [decide_eq_true_eq]
        intro hxk
        exact hnd.1 (hxk ▸ List.mem_map_of_mem Prod.fst hx)
      rw [hnil]
    · rw [List.filter_cons_of_neg (by simpa using hm), List.find?_cons_of_neg _ (by simpa using hm)]
      exact ih hnd.2

/-- C9: provided the macro keys are pairwise distinct (the macro table is keyed
by timestamp), the left join keeps exactly one output row per transaction row,
in order: each transaction row keeps its cells and receives the matching macro
row's cells when its timestamp equals a macro key, and all-missing macro cells
when it matches none. -/
theorem c9_left_join (l r res : Table) (jts : Nat)
    (hts : requireCol l "timestamp" = .ok jts)
    (h : mergeLeft l r = .ok res)
    (hnd : (r.rows.map Prod.fst).Nodup) :
    res.rows.length = l.rows.length ∧
    res.cols = l.cols ++ r.cols ∧
    res.rows = l.rows.map (fun row => (row.1, row.2 ++ joinPart r (row.cell jts))) := by
  unfold mergeLeft at h
  rw [hts] at h
  injection h with h'
  subst h'
  have hsingle : ∀ row : Row,
      (let ms := r.rows.filter fun m => decide (m.1 = row.cell jts)
       if ms.isEmpty then [(row.1, row.2 ++ List.replicate r.cols.length (none : Cell))]
       else ms.map fun m => (row.1, row.2 ++ m.2)) =
      [(row.1, row.2 ++ joinPart r (row.cell jts))] := by
    intro row
    simp only
    rw [filter_key_eq_find r.rows (row.cell jts) hnd]
    unfold joinPart
    cases hf : r.rows.find? (fun m => decide (m.1 = row.cell jts)) with
    | none => simp
    | some m => simp
  refine ⟨?_, rfl, ?_⟩ <;>
    rw [show (Table.mk (l.cols ++ r.cols)
        (l.rows.flatMap fun row =>
          let ms := r.rows.filter fun m => decide (m.1 = row.cell jts)
          if ms.isEmpty then [(row.1, row.2 ++ List.replicate r.cols.length (none : Cell))]
          else ms.map fun m => (row.1, row.2 ++ m.2))).rows =
        l.rows.map (fun row => (row.1, row.2 ++ joinPart r (row.cell jts))) from
      flatMap_eq_map_of_singleton _ _ l.rows (fun row _ => hsingle row)]
  simp

/-- C9 witness: joining the two concrete transactions against the one-row
indicator table fills the matching 2011-08-20 row and leaves missing cells on
the unmatched 2015-01-01 row. -/
theorem c9_left_join_witness :
    (mergeLeftOutT.rows.length = joinLeftT.rows.length ∧
      mergeLeftOutT.cols = joinLeftT.cols ++ joinRightT.cols ∧
      mergeLeftOutT.rows =
        joinLeftT.rows.map
          (fun row => (row.1, row.2 ++ joinPart joinRightT (row.cell 0)))) :=
  c9_left_join joinLeftT joinRightT mergeLeftOutT 0 (by with_unfolding_all rfl)
    (by with_unfolding_all rfl) (by decide)

/-! ## Rule-Based Filter lemmas -/

theorem dropAll_cols (t : Table) (ps : List (Row → Bool)) : (dropAll t ps).cols = t.cols := by
  induction ps generalizing t with
  | nil => rfl
  | cons p ps ih => exact ih (dropRows t p)

theorem requireCol_congr (s t : Table) (h : s.cols = t.cols) (n : String) :
    requireCol s n = requireCol t n := by
  simp [requireCol, h]

theorem getBadCols_congr (s t : Table) (h : s.cols = t.cols) :
    getBadCols s = getBadCols t := by
  unfold getBadCols
  simp only [requireCol, h]

theorem requireCol_ok_name (t : Table) (n : String) (j : Nat)
    (h : requireCol t n = .ok j) :
    ∃ hj : j < t.cols.length, t.cols.get ⟨j, hj⟩ = n := by
  unfold requireCol at h
  by_cases hmem : n ∈ t.cols
  · rw [if_pos hmem] at h
    injection h with h'
    subst h'
    exact ⟨List.indexOf_lt_length.mpr hmem, List.indexOf_get _⟩
  · rw [if_neg hmem] at h
    exact absurd h (by simp)

theorem requireCol_ok_ne (t : Table) (n₁ n₂ : String) (j₁ j₂ : Nat)
    (h₁ : requireCol t n₁ = .ok j₁) (h₂ : requireCol t n₂ = .ok j₂)
    (hne : n₁ ≠ n₂) : j₁ ≠ j₂ := by
  obtain ⟨hj₁, hg₁⟩ := requireCol_ok_name t n₁ j₁ h₁
  obtain ⟨hj₂, hg₂⟩ := requireCol_ok_name t n₂ j₂ h₂
  intro hjeq
  apply hne
  rw [← hg₁, ← hg₂]
  congr 1
  exact Fin.ext hjeq

theorem getBadCols_ok (t : Table) (c : BadCols) (h : getBadCols t = .ok c) :
    requireCol t "life_sq" = .ok c.jlife ∧ requireCol t "full_sq" = .ok c.jfull ∧
    requireCol t "kitch_sq" = .ok c.jkitch ∧ requireCol t "build_year" = .ok c.jbuild ∧
    requireCol t "max_floor" = .ok c.jmax ∧ requireCol t "floor" = .ok c.jfl ∧
    requireCol t "children_preschool" = .ok c.jcp ∧
    requireCol t "preschool_quota" = .ok c.jpq ∧
    requireCol t "children_school" = .ok c.jcs ∧
    requireCol t "school_quota" = .ok c.jsq ∧
    requireCol t "state" = .ok c.jstate := by
  unfold getBadCols at h
  split at h
  · exact absurd h (by simp)
  rename_i j1 h1
  split at h
  · exact absurd h (by simp)
  rename_i j2 h2
  split at h
  · exact absurd h (by simp)
  rename_i j3 h3
  split at h
  · exact absurd h (by simp)
  rename_i j4 h4
  split at h
  · exact absurd h (by simp)
  rename_i j5 h5
  split at h
  · exact absurd h (by simp)
  rename_i j6 h6
  split at h
  · exact absurd h (by simp)
  rename_i j7 h7
  split at h
  · exact absurd h (by simp)
  rename_i j8 h8
  split at h
  · exact absurd h (by simp)
  rename_i j9 h9
  split at h
  · exact absurd h (by simp)
  rename_i j10 h10
  split at h
  · exact absurd h (by simp)
  rename_i j11 h11
  injection h with h'
  subst h'
  exact ⟨h1, h2, h3, h4, h5, h6, h7, h8, h9, h10, h11⟩

theorem dropAll_sub (t : Table) (ps : List (Row → Bool)) :
    ∀ r ∈ (dropAll t ps).rows, r ∈ t.rows := by
  induction ps generalizing t with
  | nil => exact fun r hr => hr
  | cons p ps ih =>
    intro r hr
    have hr' : r ∈ (dropRows t p).rows := ih (dropRows t p) r hr
    exact (List.mem_filter.mp hr').1

theorem dropAll_pred_false (t : Table) (ps : List (Row → Bool)) :
    ∀ r ∈ (dropAll t ps).rows, ∀ p ∈ ps, p r = false := by
  induction ps generalizing t with
  | nil => intro r _ p hp; exact absurd hp (by simp)
  | cons p ps ih =>
    intro r hr q hq
    rcases List.mem_cons.mp hq with rfl | hq'
    · have hr' : r ∈ (dropRows t q).rows := dropAll_sub (dropRows t q) ps r hr
      have := (List.mem_filter.mp hr').2
      simpa using this
    · exact ih (dropRows t p) r hr q hq'

theorem dropAll_eq_self (t : Table) (ps : List (Row → Bool))
    (h : ∀ r ∈ t.rows, ∀ p ∈ ps, p r = false) : dropAll t ps = t := by
  induction ps generalizing t with
  | nil => rfl
  | cons p ps ih =>
    have h1 : dropRows t p = t := by
      cases t with
      | mk cols rows =>
        simp only [dropRows, Table.mk.injEq, true_and]
        apply List.filter_eq_self.mpr
        intro r hr
        simp [h r hr p (List.mem_cons_self p ps)]
    show dropAll (dropRows t p) ps = t
    rw [h1]
    exact ih t (fun r hr q hq => h r hr q (List.mem_cons_of_mem p hq))

theorem modePick_foldl_some (l : List Cell) (cs : List Cell) (b : Cell) :
    ∃ m, cs.foldl (modePick l) (some b) = some m := by
  induction cs generalizing b with
  | nil => exact ⟨b, rfl⟩
  | cons c cs ih =>
    show ∃ m, cs.foldl (modePick l) (if l.count c > l.count b then some c else some b) = some m
    by_cases hc : l.count c > l.count b
    · rw [if_pos hc]
      exact ih c
    · rw [if_neg hc]
      exact ih b

theorem modeCell_ne_nil (l : List Cell) (h : l ≠ []) : ∃ m, modeCell l = some m := by
  unfold modeCell
  have hd : l.dedup ≠ [] := by
    cases l with
    | nil => exact absurd rfl h
    | cons a l' =>
      exact List.ne_nil_of_mem (List.mem_dedup.mpr (List.mem_cons_self a l'))
  have hs : insSort cellLe l.dedup ≠ [] := by
    intro hnil
    have := (insSort_perm cellLe l.dedup).length_eq
    rw [hnil] at this
    exact hd (List.length_eq_zero.mp this.symm)
  cases hsort : insSort cellLe l.dedup with
  | nil => exact absurd hsort hs
  | cons x xs =>
    show ∃ m, xs.foldl (modePick l) (modePick l none x) = some m
    exact modePick_foldl_some l xs x

theorem getD_set_fix (l : List Cell) (j i : Nat) (f : Cell → Cell) (hf : f none = none) :
    (l.set j (f (l.getD j none))).getD i none =
      if i = j then f (l.getD i none) else l.getD i none := by
  rw [getD_set_formula]
  by_cases hij : i = j
  · subst hij
    by_cases hj : i < l.length
    · simp [hj]
    · have hnone : l.getD i none = none := by
        simp [List.getD_eq_getElem?_getD, List.getElem?_eq_none (Nat.le_of_not_lt hj)]
      rw [if_neg (fun hconj => hj hconj.2), if_pos rfl, hnone, hf]
  · simp [hij]

theorem stateFix_none (m : Cell) : stateFix m none = none := by simp [stateFix]

theorem buildFix_none : buildFix none = none := by simp [buildFix]

theorem stateFix_self33 (v : Cell) : stateFix (some (Value.num 33)) v = v := by
  unfold stateFix
  split
  · rename_i hv
    exact hv.symm
  · rfl

theorem stateFix_ne33 (m v : Cell) (hm : m ≠ some (Value.num 33)) :
    stateFix m v ≠ some (Value.num 33) := by
  unfold stateFix
  split
  · exact hm
  · rename_i hv
    exact hv

theorem stateFix_of_ne33 (m v : Cell) (hv : v ≠ some (Value.num 33)) :
    stateFix m v = v := if_neg hv

theorem buildFix_ne (v : Cell) : buildFix v ≠ some (Value.num 20052009) := by
  unfold buildFix
  split
  · intro hcontra
    injection hcontra with hval
    injection hval with hq
    exact absurd hq (by norm_num)
  · rename_i hv
    exact hv

theorem buildFix_of_ne (v : Cell) (hv : v ≠ some (Value.num 20052009)) :
    buildFix v = v := if_neg hv

theorem mapColCell_rows (t : Table) (j : Nat) (f : Cell → Cell) :
    (mapColCell t j f).rows = t.rows.map (fun r => (r.1, r.2.set j (f (r.cell j)))) := rfl

theorem mapColCell_cols (t : Table) (j : Nat) (f : Cell → Cell) :
    (mapColCell t j f).cols = t.cols := rfl

theorem mapColCell_rows_length (t : Table) (j : Nat) (f : Cell → Cell) :
    (mapColCell t j f).rows.length = t.rows.length := by
  rw [mapColCell_rows, List.length_map]

theorem mapColCell_id (t : Table) (j : Nat) (f : Cell → Cell)
    (h : ∀ r ∈ t.rows, f (r.cell j) = r.cell j) : mapColCell t j f = t := by
  cases t with
  | mk cols rows =>
    simp only [mapColCell, Table.mk.injEq, true_and]
    have : ∀ r ∈ rows, (r.1, r.2.set j (f (Row.cell r j))) = id r := by
      intro r hr
      rw [h r hr]
      show (r.1, r.2.set j (r.2.getD j none)) = r
      rw [set_getD_self]
    rw [List.map_congr_left this, List.map_id]

/-- Cells of a row whose `js` position was repaired with `stateFix m` and then
whose `jb` position was repaired with `buildFix`. -/
theorem repair2_getD (l : List Cell) (js jb i : Nat) (m : Cell) (hne : jb ≠ js) :
    ((l.set js (stateFix m (l.getD js none))).set jb
      (buildFix ((l.set js (stateFix m (l.getD js none))).getD jb none))).getD i none =
    if i = jb then buildFix (l.getD i none)
    else if i = js then stateFix m (l.getD i none) else l.getD i none := by
  have hA : ∀ k, (l.set js (stateFix m (l.getD js none))).getD k none =
      if k = js then stateFix m (l.getD k none) else l.getD k none :=
    fun k => getD_set_fix l js k (stateFix m) (stateFix_none m)
  rw [getD_set_fix (l.set js (stateFix m (l.getD js none))) jb i buildFix buildFix_none]
  by_cases hib : i = jb
  · subst hib
    rw [if_pos rfl, if_pos rfl, hA i, if_neg hne]
  · rw [if_neg hib, if_neg hib, hA i]

/-- Cells of a row after the two repairs (`state` at `js`, then `build_year` at
`jb`): position `jb` gets `buildFix`, position `js` gets `stateFix m`, others
are untouched. -/
theorem mapCol2_row_cells (D : Table) (js jb : Nat) (m : Cell) (hne : jb ≠ js)
    (r : Row) (hr : r ∈ (mapColCell (mapColCell D js (stateFix m)) jb buildFix).rows) :
    ∃ r0 ∈ D.rows, r.1 = r0.1 ∧ ∀ i, r.cell i =
      if i = jb then buildFix (r0.cell i)
      else if i = js then stateFix m (r0.cell i) else r0.cell i := by
  rw [mapColCell_rows, mapColCell_rows, List.map_map] at hr
  obtain ⟨r0, hr0, rfl⟩ := List.mem_map.mp hr
  exact ⟨r0, hr0, rfl, fun i => repair2_getD r0.2 js jb i m hne⟩

/-- The repaired table keeps the `state` column unchanged when the repair value
is 33 itself. -/
theorem repair_col_state_self (D : Table) (js jb : Nat) (hne : jb ≠ js) :
    (mapColCell (mapColCell D js (stateFix (some (Value.num 33)))) jb buildFix).col js =
      D.col js := by
  simp only [Table.col, mapColCell_rows, List.map_map]
  apply List.map_congr_left
  intro r0 _
  show ((r0.2.set js (stateFix (some (Value.num 33)) (r0.2.getD js none))).set jb
      (buildFix ((r0.2.set js (stateFix (some (Value.num 33)) (r0.2.getD js none))).getD
        jb none))).getD js none = r0.2.getD js none
  rw [repair2_getD r0.2 js jb js (some (Value.num 33)) hne,
    if_neg (fun heq => hne heq.symm), if_pos rfl, stateFix_self33]

theorem hbd_ok (t t' : Table) (h : handle_bad_data t = .ok t') :
    ∃ c, getBadCols t = .ok c ∧
      ∃ m, modeCell ((dropAll t (badPreds c)).col c.jstate) = some m ∧
        t' = mapColCell (mapColCell (dropAll t (badPreds c)) c.jstate (stateFix m))
          c.jbuild buildFix := by
  unfold handle_bad_data at h
  split at h
  · exact absurd h (by simp)
  · rename_i c hc
    split at h
    · exact absurd h (by simp)
    · rename_i m hm
      injection h with h'
      exact ⟨c, hc, m, hm, h'.symm⟩

theorem handle_bad_data_eval (t : Table) (c : BadCols) (m : Cell)
    (hc : getBadCols t = .ok c)
    (hm : modeCell ((dropAll t (badPreds c)).col c.jstate) = some m) :
    handle_bad_data t =
      .ok (mapColCell (mapColCell (dropAll t (badPreds c)) c.jstate (stateFix m))
        c.jbuild buildFix) := by
  unfold handle_bad_data
  simp only [hc, hm]

/-- Every removal predicate is false on every surviving row of the Rule-Based
Filter: the removals enforce it and the two repairs cannot re-trigger any
predicate (`state` occurs in no predicate; the repaired `build_year` 2007 lies
in bounds). -/
theorem hbd_preds_false (t t' : Table) (c : BadCols)
    (hc : getBadCols t = .ok c) (h : handle_bad_data t = .ok t') :
    ∀ r ∈ t'.rows, ∀ p ∈ badPreds c, p r = false := by
  obtain ⟨c', hc', m, hm, rfl⟩ := hbd_ok t t' h
  rw [hc] at hc'
  injection hc' with hceq
  subst hceq
  obtain ⟨hq1, hq2, hq3, hq4, hq5, hq6, hq7, hq8, hq9, hq10, hq11⟩ := getBadCols_ok t c hc
  have hbs : c.jbuild ≠ c.jstate := requireCol_ok_ne t _ _ _ _ hq4 hq11 (by decide)
  have h1s : c.jlife ≠ c.jstate := requireCol_ok_ne t _ _ _ _ hq1 hq11 (by decide)
  have h1b : c.jlife ≠ c.jbuild := requireCol_ok_ne t _ _ _ _ hq1 hq4 (by decide)
  have h2s : c.jfull ≠ c.jstate := requireCol_ok_ne t _ _ _ _ hq2 hq11 (by decide)
  have h2b : c.jfull ≠ c.jbuild := requireCol_ok_ne t _ _ _ _ hq2 hq4 (by decide)
  have h3s : c.jkitch ≠ c.jstate := requireCol_ok_ne t _ _ _ _ hq3 hq11 (by decide)
  have h3b : c.jkitch ≠ c.jbuild := requireCol_ok_ne t _ _ _ _ hq3 hq4 (by decide)
  have h5s : c.jmax ≠ c.jstate := requireCol_ok_ne t _ _ _ _ hq5 hq11 (by decide)
  have h5b : c.jmax ≠ c.jbuild := requireCol_ok_ne t _ _ _ _ hq5 hq4 (by decide)
  have h6s : c.jfl ≠ c.jstate := requireCol_ok_ne t _ _ _ _ hq6 hq11 (by decide)
  have h6b : c.jfl ≠ c.jbuild := requireCol_ok_ne t _ _ _ _ hq6 hq4 (by decide)
  have h7s : c.jcp ≠ c.jstate := requireCol_ok_ne t _ _ _ _ hq7 hq11 (by decide)
  have h7b : c.jcp ≠ c.jbuild := requireCol_ok_ne t _ _ _ _ hq7 hq4 (by decide)
  have h8s : c.jpq ≠ c.jstate := requireCol_ok_ne t _ _ _ _ hq8 hq11 (by decide)
  have h8b : c.jpq ≠ c.jbuild := requireCol_ok_ne t _ _ _ _ hq8 hq4 (by decide)
  have h9s : c.jcs ≠ c.jstate := requireCol_ok_ne t _ _ _ _ hq9 hq11 (by decide)
  have h9b : c.jcs ≠ c.jbuild := requireCol_ok_ne t _ _ _ _ hq9 hq4 (by decide)
  have h10s : c.jsq ≠ c.jstate := requireCol_ok_ne t _ _ _ _ hq10 hq11 (by decide)
  have h10b : c.jsq ≠ c.jbuild := requireCol_ok_ne t _ _ _ _ hq10 hq4 (by decide)
  intro r hr p hp
  obtain ⟨r0, hr0, _, hcells⟩ :=
    mapCol2_row_cells (dropAll t (badPreds c)) c.jstate c.jbuild m hbs r hr
  have hfalse := dropAll_pred_false t (badPreds c) r0 hr0
  have hcell_id : ∀ i, i ≠ c.jbuild → i ≠ c.jstate → r.cell i = r0.cell i := by
    intro i hib his
    rw [hcells i, if_neg hib, if_neg his]
  have hcell_build : r.cell c.jbuild = buildFix (r0.cell c.jbuild) := by
    rw [hcells c.jbuild, if_pos rfl]
  simp only [badPreds, List.mem_cons, List.not_mem_nil, or_false] at hp
  rcases hp with rfl | rfl | rfl | rfl | rfl | rfl | rfl | rfl | rfl | rfl | rfl | rfl | rfl | rfl
  · show cellGT (r.cell c.jlife) (r.cell c.jfull) = false
    rw [hcell_id _ h1b h1s, hcell_id _ h2b h2s]
    exact hfalse (fun r : Row => cellGT (r.cell c.jlife) (r.cell c.jfull)) (by simp [badPreds])
  · show cellGT (r.cell c.jkitch) (r.cell c.jfull) = false
    rw [hcell_id _ h3b h3s, hcell_id _ h2b h2s]
    exact hfalse (fun r : Row => cellGT (r.cell c.jkitch) (r.cell c.jfull)) (by simp [badPreds])
  · show cellEqL (r.cell c.jfull) 5326 = false
    rw [hcell_id _ h2b h2s]
    exact hfalse (fun r : Row => cellEqL (r.cell c.jfull) 5326) (by simp [badPreds])
  · show cellLEL (r.cell c.jbuild) 1691 = false
    rw [hcell_build]
    have h0 : cellLEL (r0.cell c.jbuild) 1691 = false := hfalse (fun r : Row => cellLEL (r.cell c.jbuild) 1691) (by simp [badPreds])
    by_cases hv : r0.cell c.jbuild = some (Value.num 20052009)
    · rw [hv]
      decide
    · rw [buildFix_of_ne _ hv]
      exact h0
  · show cellGTL (r.cell c.jbuild) 2018 = false
    rw [hcell_build]
    have h0 : cellGTL (r0.cell c.jbuild) 2018 = false := hfalse (fun r : Row => cellGTL (r.cell c.jbuild) 2018) (by simp [badPreds])
    by_cases hv : r0.cell c.jbuild = some (Value.num 20052009)
    · rw [hv]
      decide
    · rw [buildFix_of_ne _ hv]
      exact h0
  · show cellGTL (r.cell c.jmax) 57 = false
    rw [hcell_id _ h5b h5s]
    exact hfalse (fun r : Row => cellGTL (r.cell c.jmax) 57) (by simp [badPreds])
  · show cellGT (r.cell c.jfl) (r.cell c.jmax) = false
    rw [hcell_id _ h6b h6s, hcell_id _ h5b h5s]
    exact hfalse (fun r : Row => cellGT (r.cell c.jfl) (r.cell c.jmax)) (by simp [badPreds])
  · show cellEqL (r.cell c.jfull) 0 = false
    rw [hcell_id _ h2b h2s]
    exact hfalse (fun r : Row => cellEqL (r.cell c.jfull) 0) (by simp [badPreds])
  · show cellEqL (r.cell c.jfull) 1 = false
    rw [hcell_id _ h2b h2s]
    exact hfalse (fun r : Row => cellEqL (r.cell c.jfull) 1) (by simp [badPreds])
  · show cellEqL (r.cell c.jmax) 0 = false
    rw [hcell_id _ h5b h5s]
    exact hfalse (fun r : Row => cellEqL (r.cell c.jmax) 0) (by simp [badPreds])
  · show cellLTL (r.cell c.jcp) 0 = false
    rw [hcell_id _ h7b h7s]
    exact hfalse (fun r : Row => cellLTL (r.cell c.jcp) 0) (by simp [badPreds])
  · show cellLTL (r.cell c.jpq) 0 = false
    rw [hcell_id _ h8b h8s]
    exact hfalse (fun r : Row => cellLTL (r.cell c.jpq) 0) (by simp [badPreds])
  · show cellLTL (r.cell c.jcs) 0 = false
    rw [hcell_id _ h9b h9s]
    exact hfalse (fun r : Row => cellLTL (r.cell c.jcs) 0) (by simp [badPreds])
  · show cellLTL (r.cell c.jsq) 0 = false
    rw [hcell_id _ h10b h10s]
    exact hfalse (fun r : Row => cellLTL (r.cell c.jsq) 0) (by simp [badPreds])

/-- No surviving row of the Rule-Based Filter carries `build_year` 20052009. -/
theorem hbd_build_cells (t t' : Table) (c : BadCols)
    (hc : getBadCols t = .ok c) (h : handle_bad_data t = .ok t') :
    ∀ r ∈ t'.rows, r.cell c.jbuild ≠ some (Value.num 20052009) := by
  obtain ⟨c', hc', m, hm, rfl⟩ := hbd_ok t t' h
  rw [hc] at hc'
  injection hc' with hceq
  subst hceq
  obtain ⟨_, _, _, hq4, _, _, _, _, _, _, hq11⟩ := getBadCols_ok t c hc
  have hbs : c.jbuild ≠ c.jstate := requireCol_ok_ne t _ _ _ _ hq4 hq11 (by decide)
  intro r hr
  obtain ⟨r0, _, _, hcells⟩ :=
    mapCol2_row_cells (dropAll t (badPreds c)) c.jstate c.jbuild m hbs r hr
  rw [hcells c.jbuild, if_pos rfl]
  exact buildFix_ne _

/-- Provided the post-removal mode of `state` is not itself 33, no surviving
row of the Rule-Based Filter carries `state` 33. -/
theorem hbd_state_cells (t t' : Table) (c : BadCols)
    (hc : getBadCols t = .ok c) (h : handle_bad_data t = .ok t')
    (hm33 : modeCell ((dropAll t (badPreds c)).col c.jstate) ≠ some (some (Value.num 33))) :
    ∀ r ∈ t'.rows, r.cell c.jstate ≠ some (Value.num 33) := by
  obtain ⟨c', hc', m, hm, rfl⟩ := hbd_ok t t' h
  rw [hc] at hc'
  injection hc' with hceq
  subst hceq
  obtain ⟨_, _, _, hq4, _, _, _, _, _, _, hq11⟩ := getBadCols_ok t c hc
  have hbs : c.jbuild ≠ c.jstate := requireCol_ok_ne t _ _ _ _ hq4 hq11 (by decide)
  have hmne : m ≠ some (Value.num 33) := by
    intro hmeq
    exact hm33 (hmeq ▸ hm)
  intro r hr
  obtain ⟨r0, _, _, hcells⟩ :=
    mapCol2_row_cells (dropAll t (badPreds c)) c.jstate c.jbuild m hbs r hr
  rw [hcells c.jstate, if_neg (fun heq => hbs heq.symm), if_pos rfl]
  exact stateFix_ne33 m _ hmne

/-- C6: the Rule-Based Filter is idempotent — applying `handle_bad_data` to its
own successful output drops no further rows and changes no cell, returning the
output unchanged (every removal predicate is already false on survivors, no
`build_year` 20052009 remains, and `state` 33 either was repaired away or is
the column mode and is its own repair value). -/
theorem c6_filter_idem (t t' : Table) (h : handle_bad_data t = .ok t') :
    handle_bad_data t' = .ok t' := by
  obtain ⟨c, hc, m, hm, ht'⟩ := hbd_ok t t' h
  obtain ⟨_, _, _, hq4, _, _, _, _, _, _, hq11⟩ := getBadCols_ok t c hc
  have hbs : c.jbuild ≠ c.jstate := requireCol_ok_ne t _ _ _ _ hq4 hq11 (by decide)
  have hcols : t'.cols = t.cols := by
    rw [ht', mapColCell_cols, mapColCell_cols, dropAll_cols]
  have hcE : getBadCols t' = .ok c := by
    rw [getBadCols_congr t' t hcols]
    exact hc
  have hfalse : ∀ r ∈ t'.rows, ∀ p ∈ badPreds c, p r = false := hbd_preds_false t t' c hc h
  have hdropE : dropAll t' (badPreds c) = t' := dropAll_eq_self t' (badPreds c) hfalse
  have hlenE : t'.rows.length = (dropAll t (badPreds c)).rows.length := by
    rw [ht', mapColCell_rows_length, mapColCell_rows_length]
  have hcolnil : t'.col c.jstate ≠ [] := by
    intro hnil
    have hlen0 : t'.rows.length = 0 := by
      have hcl := congrArg List.length hnil
      rw [col_length] at hcl
      simpa using hcl
    have hD0 : (dropAll t (badPreds c)).col c.jstate = [] := by
      apply List.eq_nil_of_length_eq_zero
      rw [col_length, ← hlenE, hlen0]
    rw [hD0] at hm
    have hnone : modeCell ([] : List Cell) = none := rfl
    rw [hnone] at hm
    exact Option.noConfusion hm
  obtain ⟨m', hm'⟩ := modeCell_ne_nil (t'.col c.jstate) hcolnil
  have hbuild_id : mapColCell t' c.jbuild buildFix = t' := by
    apply mapColCell_id
    intro r hr
    exact buildFix_of_ne _ (hbd_build_cells t t' c hc h r hr)
  have hstate_id : mapColCell t' c.jstate (stateFix m') = t' := by
    apply mapColCell_id
    intro r hr
    by_cases hm33 : m = some (Value.num 33)
    · have hcolE : t'.col c.jstate = (dropAll t (badPreds c)).col c.jstate := by
        rw [ht', hm33]
        exact repair_col_state_self (dropAll t (badPreds c)) c.jstate c.jbuild hbs
      have hmm : m' = m := by
        rw [hcolE] at hm'
        have := hm'.symm.trans hm
        injection this
      rw [hmm, hm33]
      exact stateFix_self33 _
    · have hmode_ne : modeCell ((dropAll t (badPreds c)).col c.jstate) ≠
          some (some (Value.num 33)) := by
        intro hcontra
        rw [hm] at hcontra
        injection hcontra with hval
        exact hm33 hval
      exact stateFix_of_ne33 m' _ (hbd_state_cells t t' c hc h hmode_ne r hr)
  rw [handle_bad_data_eval t' c m' hcE (by rw [hdropE]; exact hm'), hdropE, hstate_id, hbuild_id]

/-- C6 witness: `handle_bad_data` maps `idemT` to `idemOut` (one row dropped,
one `state` 33 repaired to the mode 1), and a second application returns
`idemOut` unchanged. -/
theorem c6_filter_idem_witness : handle_bad_data idemOut = .ok idemOut :=
  c6_filter_idem idemT idemOut (by rfl)

/-- C7 counterexample: on `badModeT` both rows survive every removal, the mode
of `state` is 33 itself, so the output (the table unchanged) still carries
`state` 33, and the second surviving row has no `max_floor` value at all —
contradicting the claimed `state ≠ 33` and `0 < max_floor ≤ 57` invariants. -/
theorem c7_counterexample :
    handle_bad_data badModeT = .ok badModeT ∧
    badModeT.cols.getD 10 "" = "state" ∧
    badModeT.col 10 = [some (Value.num 33), some (Value.num 33)] ∧
    badModeT.cols.getD 4 "" = "max_floor" ∧
    badModeT.col 4 = [some (Value.num 10), none] :=
  ⟨by rfl, rfl, rfl, rfl, rfl⟩

/-- C7 (amended): every row surviving the Rule-Based Filter falsifies all
fourteen removal predicates (under pandas comparison semantics, where a
comparison against a missing value is false — so e.g. `build_year ≤ 1691` and
`build_year > 2018` are both false whenever `build_year` is present, and rows
with missing cells satisfy the negated predicates vacuously); no surviving row
has `build_year` 20052009; and no surviving row has `state` 33 *provided* the
post-removal mode of the `state` column is not itself 33. -/
theorem c7_filter_invariants (t t' : Table) (c : BadCols)
    (hc : getBadCols t = .ok c) (h : handle_bad_data t = .ok t') :
    (∀ r ∈ t'.rows, ∀ p ∈ badPreds c, p r = false) ∧
    (∀ r ∈ t'.rows, r.cell c.jbuild ≠ some (Value.num 20052009)) ∧
    (modeCell ((dropAll t (badPreds c)).col c.jstate) ≠ some (some (Value.num 33)) →
      ∀ r ∈ t'.rows, r.cell c.jstate ≠ some (Value.num 33)) :=
  ⟨hbd_preds_false t t' c hc h, hbd_build_cells t t' c hc h,
    fun hm33 => hbd_state_cells t t' c hc h hm33⟩

/-- C7 witness: the amended invariants instantiated on `idemT`, whose output is
`idemOut`; in particular the repaired first row's `state` is no longer 33. -/
theorem c7_filter_invariants_witness :
    ((∀ r ∈ idemOut.rows, ∀ p ∈ badPreds ⟨0, 1, 2, 3, 4, 5, 6, 7, 8, 9, 10⟩, p r = false) ∧
      (∀ r ∈ idemOut.rows, r.cell 3 ≠ some (Value.num 20052009)) ∧
      (modeCell ((dropAll idemT (badPreds ⟨0, 1, 2, 3, 4, 5, 6, 7, 8, 9, 10⟩)).col 10) ≠
          some (some (Value.num 33)) →
        ∀ r ∈ idemOut.rows, r.cell 10 ≠ some (Value.num 33))) :=
  c7_filter_invariants idemT idemOut ⟨0, 1, 2, 3, 4, 5, 6, 7, 8, 9, 10⟩ (by rfl) (by rfl)

end Clean
